import Mathlib

/-!
# Verification of `rcmgr.go` (filebase/rainbow)

Shallow embedding of the resource-budget planning code in `src/rcmgr.go`:
the general-host scope-config builder, the stricter DHT-client-only builder,
the autoscale merge, the inbound-connections sanity override, and the
dual-host budget splitter `makeResourceMgrs`.

Machine-integer conventions: Go `uint64` values are `Nat` (with an explicit
two's-complement wrap where the source casts to `int64`), Go `int`/`int64`
values are `Int`, and Go integer division (truncation toward zero) is
`Int.tdiv`.  Limit values follow the go-libp2p sentinel encoding used by the
source: `DefaultLimit = 0`, `Unlimited = -1`, any positive integer is a
concrete bound.
-/

namespace Rcmgr

/-- go-libp2p sentinel: a field still to be resolved from autoscaling. -/
def DefaultLimit : Int := 0

/-- go-libp2p sentinel: an explicitly unlimited field. -/
def Unlimited : Int := -1

/-- Go cast of a `uint64` value to `int64` (two's-complement wrap), as in
`rcmgr.LimitVal64(maxMemory)`. -/
def toInt64 (n : Nat) : Int := Int.bmod (n : Int) (2 ^ 64)

/-- `rcmgr.ResourceLimits`: the per-scope bundle of limit values. -/
structure ResourceLimits where
  Memory : Int
  FD : Int
  Conns : Int
  ConnsInbound : Int
  ConnsOutbound : Int
  Streams : Int
  StreamsInbound : Int
  StreamsOutbound : Int
  deriving Repr, DecidableEq

/-- `rcmgr.PartialLimitConfig`: the scope hierarchy. -/
structure PartialLimitConfig where
  System : ResourceLimits
  Transient : ResourceLimits
  AllowlistedSystem : ResourceLimits
  AllowlistedTransient : ResourceLimits
  ServiceDefault : ResourceLimits
  ServicePeerDefault : ResourceLimits
  ProtocolDefault : ResourceLimits
  ProtocolPeerDefault : ResourceLimits
  Conn : ResourceLimits
  Stream : ResourceLimits
  PeerDefault : ResourceLimits
  deriving Repr, DecidableEq

/-- `infiniteResourceLimits = rcmgr.InfiniteLimits.ToPartialLimitConfig().System`:
every field unlimited. -/
def infiniteResourceLimits : ResourceLimits where
  Memory := Unlimited
  FD := Unlimited
  Conns := Unlimited
  ConnsInbound := Unlimited
  ConnsOutbound := Unlimited
  Streams := Unlimited
  StreamsInbound := Unlimited
  StreamsOutbound := Unlimited

/-- The `partialLimits` literal built by `makeResourceManagerConfig`
(src/rcmgr.go lines 60-140), after the zero-budget substitutions.
`systemConnsInbound := int(1 * (maxMemory / (1024*1024)))`. -/
def generalPartialLimits (maxMemory : Nat) (maxFD : Int) : PartialLimitConfig :=
  let systemConnsInbound : Nat := maxMemory / (1024 * 1024)
  { System :=
      { Memory := toInt64 maxMemory
        FD := maxFD
        Conns := Unlimited
        ConnsInbound := (systemConnsInbound : Int)
        ConnsOutbound := Unlimited
        Streams := Unlimited
        StreamsInbound := Unlimited
        StreamsOutbound := Unlimited }
    Transient :=
      { Memory := toInt64 (maxMemory / 4)
        FD := Int.tdiv maxFD 4
        Conns := Unlimited
        ConnsInbound := ((systemConnsInbound / 4 : Nat) : Int)
        ConnsOutbound := Unlimited
        Streams := Unlimited
        StreamsInbound := Unlimited
        StreamsOutbound := Unlimited }
    AllowlistedSystem := infiniteResourceLimits
    AllowlistedTransient := infiniteResourceLimits
    ServiceDefault := infiniteResourceLimits
    ServicePeerDefault := infiniteResourceLimits
    ProtocolDefault := infiniteResourceLimits
    ProtocolPeerDefault := infiniteResourceLimits
    Conn := infiniteResourceLimits
    Stream := infiniteResourceLimits
    PeerDefault :=
      { Memory := Unlimited
        FD := Unlimited
        Conns := Unlimited
        ConnsInbound := DefaultLimit
        ConnsOutbound := Unlimited
        Streams := Unlimited
        StreamsInbound := DefaultLimit
        StreamsOutbound := Unlimited } }

/-- The `partialLimits` literal built by
`makeSeparateDHTClientResourceManagerConfig` (src/rcmgr.go lines 180-250):
`systemConnsInbound := 30`, `systemStreamsPerPeerInbound := 10`. -/
def dhtPartialLimits (maxMemory : Nat) (maxFD : Int) : PartialLimitConfig :=
  let systemConnsInbound : Int := 30
  let systemStreamsPerPeerInbound : Int := 10
  { System :=
      { Memory := toInt64 maxMemory
        FD := maxFD
        Conns := Unlimited
        ConnsInbound := systemConnsInbound
        ConnsOutbound := Unlimited
        Streams := Unlimited
        StreamsInbound := Unlimited
        StreamsOutbound := Unlimited }
    Transient :=
      { Memory := toInt64 (maxMemory / 4)
        FD := Int.tdiv maxFD 4
        Conns := Unlimited
        ConnsInbound := Int.tdiv systemConnsInbound 4
        ConnsOutbound := Unlimited
        Streams := Unlimited
        StreamsInbound := Unlimited
        StreamsOutbound := Unlimited }
    AllowlistedSystem := infiniteResourceLimits
    AllowlistedTransient := infiniteResourceLimits
    ServiceDefault := infiniteResourceLimits
    ServicePeerDefault := infiniteResourceLimits
    ProtocolDefault := infiniteResourceLimits
    ProtocolPeerDefault := infiniteResourceLimits
    Conn := infiniteResourceLimits
    Stream := infiniteResourceLimits
    PeerDefault :=
      { Memory := Unlimited
        FD := Unlimited
        Conns := Unlimited
        ConnsInbound := DefaultLimit
        ConnsOutbound := Unlimited
        Streams := Unlimited
        StreamsInbound := systemStreamsPerPeerInbound
        StreamsOutbound := Unlimited } }

/-- Modelled from the spec: the external merge operator
`partial.Build(scaled).ToPartialLimitConfig()` of go-libp2p (not part of this
repository) substitutes the autoscaled value for every field the partial
hierarchy left as `DefaultLimit`; explicit fields (concrete or `Unlimited`)
win. -/
def mergeVal (explicit scaled : Int) : Int :=
  if explicit = DefaultLimit then scaled else explicit

/-- Field-wise merge of one scope record (spec section 4.2). -/
def mergeLimits (p s : ResourceLimits) : ResourceLimits where
  Memory := mergeVal p.Memory s.Memory
  FD := mergeVal p.FD s.FD
  Conns := mergeVal p.Conns s.Conns
  ConnsInbound := mergeVal p.ConnsInbound s.ConnsInbound
  ConnsOutbound := mergeVal p.ConnsOutbound s.ConnsOutbound
  Streams := mergeVal p.Streams s.Streams
  StreamsInbound := mergeVal p.StreamsInbound s.StreamsInbound
  StreamsOutbound := mergeVal p.StreamsOutbound s.StreamsOutbound

/-- Slot-wise merge of the whole hierarchy (spec section 4.2). -/
def mergeConfig (p s : PartialLimitConfig) : PartialLimitConfig where
  System := mergeLimits p.System s.System
  Transient := mergeLimits p.Transient s.Transient
  AllowlistedSystem := mergeLimits p.AllowlistedSystem s.AllowlistedSystem
  AllowlistedTransient := mergeLimits p.AllowlistedTransient s.AllowlistedTransient
  ServiceDefault := mergeLimits p.ServiceDefault s.ServiceDefault
  ServicePeerDefault := mergeLimits p.ServicePeerDefault s.ServicePeerDefault
  ProtocolDefault := mergeLimits p.ProtocolDefault s.ProtocolDefault
  ProtocolPeerDefault := mergeLimits p.ProtocolPeerDefault s.ProtocolPeerDefault
  Conn := mergeLimits p.Conn s.Conn
  Stream := mergeLimits p.Stream s.Stream
  PeerDefault := mergeLimits p.PeerDefault s.PeerDefault

/-- The inbound-connections sanity override of `makeResourceManagerConfig`
(src/rcmgr.go lines 143-166), acting on the merged `System` record:
when `ConnsInbound > DefaultLimit`, raise it to `connMgrHighWater * 2` and
then to `800` if below, rescaling a concrete `StreamsInbound`
proportionally with Go `int64` division. -/
def sanityOverride (sys : ResourceLimits) (connMgrHighWater : Int) : ResourceLimits :=
  if sys.ConnsInbound > DefaultLimit then
    let maxInboundConns₁ : Int :=
      if sys.ConnsInbound < connMgrHighWater * 2 then connMgrHighWater * 2
      else sys.ConnsInbound
    let maxInboundConns : Int :=
      if maxInboundConns₁ < 800 then 800 else maxInboundConns₁
    let newStreamsInbound : Int :=
      if sys.StreamsInbound > DefaultLimit then
        Int.tdiv (maxInboundConns * sys.StreamsInbound) sys.ConnsInbound
      else sys.StreamsInbound
    { sys with ConnsInbound := maxInboundConns, StreamsInbound := newStreamsInbound }
  else sys

/-- `makeResourceManagerConfig(maxMemory, maxFD, connMgrHighWater)`
(src/rcmgr.go lines 52-178).  The environment fallbacks
`uint64(float64(memory.TotalMemory())*0.85)` and `fd.GetNumFDs()/2` are the
injected parameters `envMem`/`envFD`; the external autoscaler
`scalingLimitConfig.Scale` (with libp2p default service limits) is the
injected function `scale`.  The final `Build(rcmgr.ConcreteLimitConfig{})`
freeze is value-preserving on a resolved hierarchy and is not repeated
here. -/
def makeResourceManagerConfig (envMem : Nat) (envFD : Int)
    (scale : Nat → Int → PartialLimitConfig)
    (maxMemory₀ : Nat) (maxFD₀ : Int) (connMgrHighWater : Int) : PartialLimitConfig :=
  let maxMemory := if maxMemory₀ = 0 then envMem else maxMemory₀
  let maxFD := if maxFD₀ = 0 then envFD else maxFD₀
  let partialLimits := generalPartialLimits maxMemory maxFD
  let merged := mergeConfig partialLimits (scale maxMemory maxFD)
  { merged with System := sanityOverride merged.System connMgrHighWater }

/-- `makeSeparateDHTClientResourceManagerConfig(maxMemory, maxFD)`
(src/rcmgr.go lines 180-262): build the stricter partial hierarchy and merge
with the autoscaled config; no zero-budget substitution and no sanity
override on this path. -/
def makeSeparateDHTClientResourceManagerConfig
    (scale : Nat → Int → PartialLimitConfig)
    (maxMemory : Nat) (maxFD : Int) : PartialLimitConfig :=
  mergeConfig (dhtPartialLimits maxMemory maxFD) (scale maxMemory maxFD)

/-- Number of binary digits of `n` (`0` for `0`), fuel-driven so that the
kernel can evaluate it on literals; `bitlenAux fuel n` is exact whenever
`n < 2 ^ fuel`. -/
def bitlenAux : Nat → Nat → Nat
  | 0, _ => 0
  | fuel + 1, n => if n = 0 then 0 else bitlenAux fuel (n / 2) + 1

/-- Binary length with fuel 128: exact for every `n < 2^128`, which covers
every value the two `float64` share computations below can produce from a
`uint64`/`int64` budget. -/
def bitlen (n : Nat) : Nat := bitlenAux 128 n

/-- `rneShift x d` is `x / 2^d` rounded to the nearest integer, ties to
even — the IEEE-754 binary64 rounding of a positive value whose `d` lowest
bits do not fit the 53-bit significand. -/
def rneShift (x d : Nat) : Nat :=
  if d = 0 then x
  else
    let q := x / 2 ^ d
    let r := x % 2 ^ d
    if 2 ^ (d - 1) < r ∨ (r = 2 ^ (d - 1) ∧ q % 2 = 1) then q + 1 else q

/-- Round a nonnegative integer to the nearest IEEE-754 binary64 value
(round to nearest, ties to even): exact below `2^53`, else the `d` low bits
are rounded away with `rneShift`, `d = bitlen x - 53`.  Every `float64`
value reachable in the share computations is an integer or a dyadic
rational handled by scaling, so the result is returned as a `Nat`. -/
def floatRound53 (x : Nat) : Nat :=
  if x < 2 ^ 53 then x
  else rneShift x (bitlen x - 53) * 2 ^ (bitlen x - 53)

/-- The significand of the `float64` literal `0.85` scaled by `2^53`: the
double nearest to `0.85` is exactly `c85num / 2^53`. -/
def c85num : Nat := 7656119366529843

/-- `bitswapHostMem := uint64(float64(maxMemory) * 0.85)` (src/rcmgr.go
line 35), embedded bit-exactly: `float64(maxMemory)` is
`floatRound53 maxMemory`; the literal `0.85` is the dyadic rational
`c85num / 2^53`; the product, exact as `floatRound53 maxMemory * c85num`
over `2^53`, is rounded back to 53 significant bits (scaling by a power of
two commutes with binary rounding); the `uint64` conversion truncates.
This is exact IEEE-754 binary64 arithmetic for every `maxMemory < 2^64`. -/
def bitswapHostMem (maxMemory : Nat) : Nat :=
  floatRound53 (floatRound53 maxMemory * c85num) / 2 ^ 53

/-- `dhtHostMem := maxMemory - bitswapHostMem` (src/rcmgr.go line 42). -/
def dhtHostMem (maxMemory : Nat) : Nat := maxMemory - bitswapHostMem maxMemory

/-- Magnitude of `int(float64(n) * 0.75)` (src/rcmgr.go line 36) for a
nonnegative `n`: `0.75` is exactly the dyadic rational `3 / 4`, so the
product `floatRound53 n * 3` over `4` is exact, is rounded back to 53
significant bits, and the `int` conversion truncates. -/
def bitswapHostFDsNat (n : Nat) : Nat :=
  floatRound53 (floatRound53 n * 3) / 4

/-- `bitswapHostFDs := int(float64(maxFD) * 0.75)` (src/rcmgr.go line 36):
`float64` rounding and conversion truncation are both symmetric under
negation, so the signed value is the signed magnitude computation. -/
def bitswapHostFDs (maxFD : Int) : Int :=
  if maxFD < 0 then -(bitswapHostFDsNat maxFD.natAbs : Int)
  else (bitswapHostFDsNat maxFD.natAbs : Int)

/-- `dhtHostFDs := maxFD - bitswapHostFDs` (src/rcmgr.go line 43). -/
def dhtHostFDs (maxFD : Int) : Int := maxFD - bitswapHostFDs maxFD

/-- `makeResourceMgrs(maxMemory, maxFD, connMgrHighWater, separateDHT)`
(src/rcmgr.go lines 19-50).  The Go function returns
`(bitswapHost, dhtHost network.ResourceManager, err error)`; the triple of
options mirrors its `nil`-patterns exactly.  The fallible external
constructor `rcmgr.NewResourceManager(rcmgr.NewFixedLimiter(cfg))` is the
injected function `newRM`; the environment fallbacks are `envMem`/`envFD`
as in `makeResourceManagerConfig`. -/
def makeResourceMgrs {Err Mgr : Type}
    (envMem : Nat) (envFD : Int)
    (scale : Nat → Int → PartialLimitConfig)
    (newRM : PartialLimitConfig → Except Err Mgr)
    (maxMemory₀ : Nat) (maxFD₀ : Int) (connMgrHighWater : Int)
    (separateDHT : Bool) : Option Mgr × Option Mgr × Option Err :=
  let maxMemory := if maxMemory₀ = 0 then envMem else maxMemory₀
  let maxFD := if maxFD₀ = 0 then envFD else maxFD₀
  if separateDHT = false then
    match newRM (makeResourceManagerConfig envMem envFD scale
        maxMemory maxFD connMgrHighWater) with
    | Except.error e => (none, none, some e)
    | Except.ok mgr => (some mgr, none, none)
  else
    match newRM (makeResourceManagerConfig envMem envFD scale
        (bitswapHostMem maxMemory) (bitswapHostFDs maxFD) connMgrHighWater) with
    | Except.error e => (none, none, some e)
    | Except.ok bitswapHostRcMgr =>
      match newRM (makeSeparateDHTClientResourceManagerConfig scale
          (dhtHostMem maxMemory) (dhtHostFDs maxFD)) with
      | Except.error e => (none, none, some e)
      | Except.ok dhtHostRcMgr => (some bitswapHostRcMgr, some dhtHostRcMgr, none)

/-- A scope record is resolved when no field is left at the `DefaultLimit`
("inherit") sentinel. -/
def ResourceLimits.Resolved (r : ResourceLimits) : Prop :=
  r.Memory ≠ DefaultLimit ∧ r.FD ≠ DefaultLimit ∧
  r.Conns ≠ DefaultLimit ∧ r.ConnsInbound ≠ DefaultLimit ∧
  r.ConnsOutbound ≠ DefaultLimit ∧ r.Streams ≠ DefaultLimit ∧
  r.StreamsInbound ≠ DefaultLimit ∧ r.StreamsOutbound ≠ DefaultLimit

instance (r : ResourceLimits) : Decidable r.Resolved := by
  unfold ResourceLimits.Resolved; infer_instance

/-- A hierarchy is resolved when every slot is. -/
def PartialLimitConfig.Resolved (c : PartialLimitConfig) : Prop :=
  c.System.Resolved ∧ c.Transient.Resolved ∧
  c.AllowlistedSystem.Resolved ∧ c.AllowlistedTransient.Resolved ∧
  c.ServiceDefault.Resolved ∧ c.ServicePeerDefault.Resolved ∧
  c.ProtocolDefault.Resolved ∧ c.ProtocolPeerDefault.Resolved ∧
  c.Conn.Resolved ∧ c.Stream.Resolved ∧ c.PeerDefault.Resolved

instance (c : PartialLimitConfig) : Decidable c.Resolved := by
  unfold PartialLimitConfig.Resolved; infer_instance

/-- A concrete merged `System` record used to exercise the sanity override:
1000 inbound connections, 64000 inbound streams. -/
def sampleSystem : ResourceLimits where
  Memory := 4294967296
  FD := 4096
  Conns := Unlimited
  ConnsInbound := 1000
  ConnsOutbound := Unlimited
  Streams := Unlimited
  StreamsInbound := 64000
  StreamsOutbound := Unlimited

/-- A fully-resolved autoscaled hierarchy (every slot unlimited), standing in
for the external autoscaler's output on concrete runs. -/
def sampleScaled : PartialLimitConfig where
  System := infiniteResourceLimits
  Transient := infiniteResourceLimits
  AllowlistedSystem := infiniteResourceLimits
  AllowlistedTransient := infiniteResourceLimits
  ServiceDefault := infiniteResourceLimits
  ServicePeerDefault := infiniteResourceLimits
  ProtocolDefault := infiniteResourceLimits
  ProtocolPeerDefault := infiniteResourceLimits
  Conn := infiniteResourceLimits
  Stream := infiniteResourceLimits
  PeerDefault := infiniteResourceLimits

/-- A constant autoscaling function used on concrete runs. -/
def sampleScale : Nat → Int → PartialLimitConfig := fun _ _ => sampleScaled

/-! ## Helper lemmas -/

/-- The `uint64 → int64` cast is the identity below `2^63`. -/
theorem toInt64_eq {n : Nat} (h : n < 2 ^ 63) : toInt64 n = (n : Int) := by
  have h64 : (n : Int) < ((2 ^ 64 : Nat) : Int) := by
    have : n < 2 ^ 64 := lt_trans h (by norm_num)
    exact_mod_cast this
  have hmod : (n : Int) % ((2 ^ 64 : Nat) : Int) = (n : Int) :=
    Int.emod_eq_of_lt (Int.ofNat_nonneg n) h64
  unfold toInt64
  rw [Int.bmod_def, hmod]
  rw [if_pos]
  have h63 : (n : Int) < ((2 ^ 63 : Nat) : Int) := by exact_mod_cast h
  omega

theorem bitlenAux_zero (fuel : Nat) : bitlenAux fuel 0 = 0 := by
  cases fuel <;> simp [bitlenAux]

/-- Lower half of the binary-length specification, valid for every fuel:
`n` has at least `bitlenAux fuel n` binary digits. -/
theorem bitlenAux_low (fuel : Nat) : ∀ n, 1 ≤ n → 2 ^ (bitlenAux fuel n - 1) ≤ n := by
  induction fuel with
  | zero =>
    intro n hn
    simp only [bitlenAux]
    omega
  | succ fuel ih =>
    intro n hn
    simp only [bitlenAux]
    rw [if_neg (by omega : ¬n = 0)]
    by_cases h2 : n / 2 = 0
    · rw [h2, bitlenAux_zero]
      omega
    · have hrec := ih (n / 2) (by omega)
      have hs : bitlenAux fuel (n / 2) + 1 - 1 = bitlenAux fuel (n / 2) := by omega
      rw [hs]
      by_cases hb : bitlenAux fuel (n / 2) = 0
      · rw [hb]
        omega
      · have hpow : 2 ^ bitlenAux fuel (n / 2) = 2 * 2 ^ (bitlenAux fuel (n / 2) - 1) := by
          conv_lhs => rw [show bitlenAux fuel (n / 2) = bitlenAux fuel (n / 2) - 1 + 1 from by
            omega]
          rw [pow_succ]
          ring
        omega

/-- With enough fuel, a value of at least `2^k` has more than `k` binary
digits. -/
theorem bitlenAux_lb (fuel : Nat) : ∀ k n, k + 1 ≤ fuel → 2 ^ k ≤ n →
    k + 1 ≤ bitlenAux fuel n := by
  induction fuel with
  | zero =>
    intro k n hf _
    omega
  | succ fuel ih =>
    intro k n hf hn
    have hk0 : 0 < 2 ^ k := pow_pos (by norm_num) k
    simp only [bitlenAux]
    rw [if_neg (by omega : ¬n = 0)]
    by_cases hk : k = 0
    · omega
    · have hpow : 2 ^ k = 2 * 2 ^ (k - 1) := by
        conv_lhs => rw [show k = k - 1 + 1 from by omega]
        rw [pow_succ]
        ring
      have h1 : 2 ^ (k - 1) ≤ n / 2 := by omega
      have := ih (k - 1) (n / 2) (by omega) h1
      omega

theorem bitlen_low {n : Nat} (h : 1 ≤ n) : 2 ^ (bitlen n - 1) ≤ n :=
  bitlenAux_low 128 n h

theorem bitlen_ge54 {n : Nat} (h : 2 ^ 53 ≤ n) : 54 ≤ bitlen n :=
  bitlenAux_lb 128 53 n (by norm_num) h

/-- Round-to-nearest never adds more than half the rounding granularity. -/
theorem rneShift_le {x d : Nat} (hd : 1 ≤ d) :
    rneShift x d * 2 ^ d ≤ x + 2 ^ (d - 1) := by
  unfold rneShift
  rw [if_neg (by omega : ¬d = 0)]
  have hx : x / 2 ^ d * 2 ^ d + x % 2 ^ d = x := Nat.div_add_mod' x (2 ^ d)
  have hpow : 2 ^ d = 2 * 2 ^ (d - 1) := by
    conv_lhs => rw [show d = d - 1 + 1 from by omega]
    rw [pow_succ]
    ring
  dsimp only
  split_ifs with hcond
  · have hr : 2 ^ (d - 1) ≤ x % 2 ^ d := by
      rcases hcond with h | ⟨h, _⟩
      · omega
      · omega
    rw [Nat.succ_mul]
    set M := x / 2 ^ d * 2 ^ d with hM
    omega
  · calc x / 2 ^ d * 2 ^ d ≤ x := Nat.div_mul_le_self x (2 ^ d)
      _ ≤ x + 2 ^ (d - 1) := Nat.le_add_right _ _

/-- The binary64 rounding of `x` exceeds `x` by a relative error of at most
`2^(-53)`: `fl(x) ≤ x * (1 + 2^(-53))`, cleared of denominators. -/
theorem floatRound53_le (x : Nat) : floatRound53 x * 2 ^ 53 ≤ x * (2 ^ 53 + 1) := by
  unfold floatRound53
  split_ifs with h
  · exact Nat.mul_le_mul_left x (by omega)
  · push_neg at h
    have hb54 := bitlen_ge54 h
    have hlow : 2 ^ (bitlen x - 1) ≤ x := bitlen_low (by omega)
    have hd : 1 ≤ bitlen x - 53 := by omega
    have hr := rneShift_le (x := x) hd
    have hkey : 2 ^ (bitlen x - 53 - 1) * 2 ^ 53 ≤ x := by
      rw [← pow_add]
      have he : bitlen x - 53 - 1 + 53 = bitlen x - 1 := by omega
      rw [he]
      exact hlow
    calc rneShift x (bitlen x - 53) * 2 ^ (bitlen x - 53) * 2 ^ 53
        ≤ (x + 2 ^ (bitlen x - 53 - 1)) * 2 ^ 53 := Nat.mul_le_mul_right _ hr
      _ = x * 2 ^ 53 + 2 ^ (bitlen x - 53 - 1) * 2 ^ 53 := by ring
      _ ≤ x * 2 ^ 53 + x := by omega
      _ = x * (2 ^ 53 + 1) := by ring

/-- A doubly rounded scaled product never exceeds the unscaled input when
the scale constant leaves room for both relative errors: the common bound
behind the 85 % and 75 % shares. -/
theorem floatShare_le (n c t : Nat) (ht : 0 < t)
    (hc : c * (2 ^ 53 + 1) ^ 2 ≤ t * 2 ^ 53 * 2 ^ 53) :
    floatRound53 (floatRound53 n * c) / t ≤ n := by
  have h1 := floatRound53_le n
  have h2 := floatRound53_le (floatRound53 n * c)
  have h3 : floatRound53 (floatRound53 n * c) / t * t ≤ floatRound53 (floatRound53 n * c) :=
    Nat.div_mul_le_self _ _
  have hchain : floatRound53 (floatRound53 n * c) / t * (t * 2 ^ 53 * 2 ^ 53)
      ≤ n * (t * 2 ^ 53 * 2 ^ 53) := by
    calc floatRound53 (floatRound53 n * c) / t * (t * 2 ^ 53 * 2 ^ 53)
        = floatRound53 (floatRound53 n * c) / t * t * 2 ^ 53 * 2 ^ 53 := by ring
      _ ≤ floatRound53 (floatRound53 n * c) * 2 ^ 53 * 2 ^ 53 :=
          Nat.mul_le_mul_right _ (Nat.mul_le_mul_right _ h3)
      _ ≤ floatRound53 n * c * (2 ^ 53 + 1) * 2 ^ 53 := Nat.mul_le_mul_right _ h2
      _ = floatRound53 n * 2 ^ 53 * (c * (2 ^ 53 + 1)) := by ring
      _ ≤ n * (2 ^ 53 + 1) * (c * (2 ^ 53 + 1)) := Nat.mul_le_mul_right _ h1
      _ = n * (c * (2 ^ 53 + 1) ^ 2) := by ring
      _ ≤ n * (t * 2 ^ 53 * 2 ^ 53) := Nat.mul_le_mul_left n hc
  exact Nat.le_of_mul_le_mul_right hchain (by positivity)

/-- The primary memory share never exceeds the budget. -/
theorem bitswapHostMem_le (maxMemory : Nat) : bitswapHostMem maxMemory ≤ maxMemory :=
  floatShare_le maxMemory c85num (2 ^ 53) (by norm_num) (by norm_num [c85num])

/-- The primary fd-share magnitude never exceeds the budget magnitude. -/
theorem bitswapHostFDsNat_le (n : Nat) : bitswapHostFDsNat n ≤ n :=
  floatShare_le n 3 4 (by norm_num) (by norm_num)

/-- The sanity override never touches an `Unlimited` inbound-streams value:
the rescale branch requires a value above `DefaultLimit`. -/
theorem sanityOverride_unlimited_streams {sys : ResourceLimits} (hw : Int)
    (h : sys.StreamsInbound = Unlimited) :
    (sanityOverride sys hw).StreamsInbound = Unlimited := by
  unfold sanityOverride
  split_ifs <;> simp_all [Unlimited, DefaultLimit]

/-! ## Claim theorems -/

/-- C1: for every `maxMemory > 0`, the general-host builder sets the
pre-override `System.ConnsInbound` limit to exactly
`floor(maxMemory / 2^20)` — one inbound connection per megabyte of the
memory budget. -/
theorem general_builder_system_connsInbound (maxMemory : Nat) (maxFD : Int)
    (_h : 0 < maxMemory) :
    (generalPartialLimits maxMemory maxFD).System.ConnsInbound
      = ((maxMemory / 2 ^ 20 : Nat) : Int) := rfl

/-- Witness for C1 at `maxMemory = 4 GiB`, `maxFD = 4096`. -/
theorem general_builder_system_connsInbound_witness :
    0 < 4294967296 ∧
    (generalPartialLimits 4294967296 4096).System.ConnsInbound
      = ((4294967296 / 2 ^ 20 : Nat) : Int) :=
  ⟨by decide, general_builder_system_connsInbound 4294967296 4096 (by decide)⟩

/-- C2: whenever the merged `System.ConnsInbound` is concrete
(`> DefaultLimit`), the sanity override yields a final value at least
`max (2 * connMgrHighWater) 800`, and leaves the value unchanged when it
already meets both floors. -/
theorem sanityOverride_inbound_floor (sys : ResourceLimits) (connMgrHighWater : Int)
    (h : sys.ConnsInbound > DefaultLimit) :
    max (2 * connMgrHighWater) 800 ≤ (sanityOverride sys connMgrHighWater).ConnsInbound ∧
    (2 * connMgrHighWater ≤ sys.ConnsInbound → 800 ≤ sys.ConnsInbound →
      (sanityOverride sys connMgrHighWater).ConnsInbound = sys.ConnsInbound) := by
  unfold sanityOverride
  rw [if_pos h]
  dsimp only
  constructor
  · rw [max_le_iff]
    constructor <;> split_ifs <;> omega
  · intro h1 h2
    split_ifs <;> omega

/-- Witness for C2 at a merged system record with 1000 inbound connections
and a high-water mark of 400: both floors already met, value unchanged. -/
theorem sanityOverride_inbound_floor_witness :
    sampleSystem.ConnsInbound > DefaultLimit ∧
    max (2 * 400) 800 ≤ (sanityOverride sampleSystem 400).ConnsInbound ∧
    (sanityOverride sampleSystem 400).ConnsInbound = sampleSystem.ConnsInbound :=
  ⟨by decide,
   (sanityOverride_inbound_floor sampleSystem 400 (by decide)).1,
   (sanityOverride_inbound_floor sampleSystem 400 (by decide)).2 (by decide) (by decide)⟩

/-- C5: if both the merged `System.ConnsInbound` and `System.StreamsInbound`
are concrete, the sanity override rescales the inbound-streams limit to
`clampedConns * oldStreams / oldConns` (Go `int64` truncated division),
where `clampedConns` is the final inbound-connections value. -/
theorem sanityOverride_stream_ratio (sys : ResourceLimits) (connMgrHighWater : Int)
    (hc : sys.ConnsInbound > DefaultLimit) (hs : sys.StreamsInbound > DefaultLimit) :
    (sanityOverride sys connMgrHighWater).StreamsInbound
      = Int.tdiv ((sanityOverride sys connMgrHighWater).ConnsInbound * sys.StreamsInbound)
          sys.ConnsInbound := by
  unfold sanityOverride
  rw [if_pos hc]
  dsimp only
  rw [if_pos hs]

/-- Witness for C5 at 1000 inbound connections, 64000 inbound streams and a
high-water mark of 600: the clamp raises connections to 1200 and streams to
`1200 * 64000 / 1000`. -/
theorem sanityOverride_stream_ratio_witness :
    sampleSystem.ConnsInbound > DefaultLimit ∧
    sampleSystem.StreamsInbound > DefaultLimit ∧
    (sanityOverride sampleSystem 600).StreamsInbound
      = Int.tdiv ((sanityOverride sampleSystem 600).ConnsInbound * sampleSystem.StreamsInbound)
          sampleSystem.ConnsInbound :=
  ⟨by decide, by decide,
   sanityOverride_stream_ratio sampleSystem 600 (by decide) (by decide)⟩

set_option maxRecDepth 8000 in
/-- C3 (counterexample): the primary shares are the `float64` computations
of the source, not the exact truncated 85 %/75 % shares: at
`maxMemory = 2^53 + 2` the code yields `7656119366529845` while exact 85 %
gives `7656119366529844`, and at `maxFD = 6004799503160665` the code yields
`4503599627370499` while exact 75 % gives `4503599627370498`. -/
theorem dual_host_split_exact_share_counterexample :
    bitswapHostMem (2 ^ 53 + 2) = 7656119366529845 ∧
    (2 ^ 53 + 2) * 85 / 100 = 7656119366529844 ∧
    bitswapHostFDs 6004799503160665 = 4503599627370499 ∧
    Int.tdiv (6004799503160665 * 75) 100 = 4503599627370498 := by
  refine ⟨by decide, by decide, by decide, by decide⟩

/-- C3 (amended): when two separate hosts are requested, the primary host
receives the `float64`-computed 85 % memory and 75 % fd shares (never more
than the whole budget), the secondary host receives exactly the remainder,
and both sums are conserved exactly. -/
theorem dual_host_split_conserving (maxMemory : Nat) (maxFD : Int) :
    bitswapHostMem maxMemory ≤ maxMemory ∧
    bitswapHostMem maxMemory + dhtHostMem maxMemory = maxMemory ∧
    bitswapHostFDs maxFD + dhtHostFDs maxFD = maxFD := by
  refine ⟨bitswapHostMem_le maxMemory, ?_, ?_⟩
  · have h := bitswapHostMem_le maxMemory
    unfold dhtHostMem
    omega
  · unfold dhtHostFDs
    ring

/-- C4: both builder variants set `Transient.Memory = maxMemory / 4`,
`Transient.FD = maxFD / 4` and
`Transient.ConnsInbound = System.ConnsInbound / 4` (integer division), with
every other `Transient` field `Unlimited`.  The hypothesis bounds the budget
to its `uint64` range so the `int64` cast of `maxMemory / 4` is exact. -/
theorem transient_quarter (maxMemory : Nat) (maxFD : Int) (h : maxMemory < 2 ^ 64) :
    (generalPartialLimits maxMemory maxFD).Transient =
      { Memory := ((maxMemory / 4 : Nat) : Int)
        FD := Int.tdiv maxFD 4
        Conns := Unlimited
        ConnsInbound :=
          Int.tdiv (generalPartialLimits maxMemory maxFD).System.ConnsInbound 4
        ConnsOutbound := Unlimited
        Streams := Unlimited
        StreamsInbound := Unlimited
        StreamsOutbound := Unlimited } ∧
    (dhtPartialLimits maxMemory maxFD).Transient =
      { Memory := ((maxMemory / 4 : Nat) : Int)
        FD := Int.tdiv maxFD 4
        Conns := Unlimited
        ConnsInbound :=
          Int.tdiv (dhtPartialLimits maxMemory maxFD).System.ConnsInbound 4
        ConnsOutbound := Unlimited
        Streams := Unlimited
        StreamsInbound := Unlimited
        StreamsOutbound := Unlimited } := by
  have hq : maxMemory / 4 < 2 ^ 63 := by omega
  constructor
  · unfold generalPartialLimits
    dsimp only
    rw [toInt64_eq hq]
    rfl
  · unfold dhtPartialLimits
    dsimp only
    rw [toInt64_eq hq]

/-- Witness for C4 at `maxMemory = 4 GiB`, `maxFD = 4096`. -/
theorem transient_quarter_witness :
    (4294967296 : Nat) < 2 ^ 64 ∧
    ((generalPartialLimits 4294967296 4096).Transient =
      { Memory := ((4294967296 / 4 : Nat) : Int)
        FD := Int.tdiv 4096 4
        Conns := Unlimited
        ConnsInbound :=
          Int.tdiv (generalPartialLimits 4294967296 4096).System.ConnsInbound 4
        ConnsOutbound := Unlimited
        Streams := Unlimited
        StreamsInbound := Unlimited
        StreamsOutbound := Unlimited } ∧
    (dhtPartialLimits 4294967296 4096).Transient =
      { Memory := ((4294967296 / 4 : Nat) : Int)
        FD := Int.tdiv 4096 4
        Conns := Unlimited
        ConnsInbound :=
          Int.tdiv (dhtPartialLimits 4294967296 4096).System.ConnsInbound 4
        ConnsOutbound := Unlimited
        Streams := Unlimited
        StreamsInbound := Unlimited
        StreamsOutbound := Unlimited }) :=
  ⟨by decide, transient_quarter 4294967296 4096 (by decide)⟩

/-- C6: the DHT-client-only variant's returned configuration has
`System.ConnsInbound` fixed at 30 and `PeerDefault.StreamsInbound` fixed at
10, for every memory/fd share and every autoscaler output; the function does
not consume the connection-manager high-water mark at all (the sanity
override is never applied on this path), so the unused binder records that
the result is the same for every high-water value. -/
theorem dht_variant_fixed_limits (scale : Nat → Int → PartialLimitConfig)
    (maxMemory : Nat) (maxFD : Int) (_connMgrHighWater : Int) :
    (makeSeparateDHTClientResourceManagerConfig scale maxMemory maxFD).System.ConnsInbound
      = 30 ∧
    (makeSeparateDHTClientResourceManagerConfig scale maxMemory maxFD).PeerDefault.StreamsInbound
      = 10 :=
  ⟨rfl, rfl⟩

/-- C9: for every input to the general-host pipeline, the final
`System.StreamsInbound` is `Unlimited`: the builder sets it explicitly, the
explicit value survives the autoscale merge, and the override's
stream-rescale branch requires a concrete (`> DefaultLimit`) value and so
never fires on this path. -/
theorem general_streamsInbound_unlimited (envMem : Nat) (envFD : Int)
    (scale : Nat → Int → PartialLimitConfig) (maxMemory₀ : Nat) (maxFD₀ : Int)
    (connMgrHighWater : Int) :
    (makeResourceManagerConfig envMem envFD scale maxMemory₀ maxFD₀
        connMgrHighWater).System.StreamsInbound = Unlimited := by
  unfold makeResourceManagerConfig
  dsimp only
  exact sanityOverride_unlimited_streams _ rfl

/-- C10: when `0 < maxMemory < 2^20`, the general-host builder computes a
`System.ConnsInbound` of 0, which is the `DefaultLimit` sentinel, so the
autoscale merge substitutes the library value for it; and the override guard
skips the clamp for any non-concrete (`≤ DefaultLimit`) merged value. -/
theorem small_memory_default_collision (maxMemory : Nat) (maxFD : Int)
    (scale : Nat → Int → PartialLimitConfig)
    (h0 : 0 < maxMemory) (h1 : maxMemory < 2 ^ 20) :
    (generalPartialLimits maxMemory maxFD).System.ConnsInbound = DefaultLimit ∧
    (mergeConfig (generalPartialLimits maxMemory maxFD)
        (scale maxMemory maxFD)).System.ConnsInbound
      = (scale maxMemory maxFD).System.ConnsInbound ∧
    (∀ sys : ResourceLimits, ∀ hw : Int, sys.ConnsInbound ≤ DefaultLimit →
      sanityOverride sys hw = sys) := by
  have hz : maxMemory / (1024 * 1024) = 0 := Nat.div_eq_of_lt (by omega)
  refine ⟨?_, ?_, ?_⟩
  · show ((maxMemory / (1024 * 1024) : Nat) : Int) = DefaultLimit
    rw [hz]
    rfl
  · show mergeVal ((maxMemory / (1024 * 1024) : Nat) : Int) _ = _
    rw [hz]
    rfl
  · intro sys hw hle
    unfold sanityOverride
    rw [if_neg (not_lt.mpr hle)]

/-- The merge never leaves a field at `DefaultLimit` when the autoscaled
side is resolved: explicit fields win and `DefaultLimit` fields take the
resolved autoscaled value. -/
theorem mergeVal_ne_default {p s : Int} (hs : s ≠ DefaultLimit) :
    mergeVal p s ≠ DefaultLimit := by
  unfold mergeVal
  split
  · exact hs
  · next hp => exact hp

theorem mergeLimits_resolved {p s : ResourceLimits} (hs : s.Resolved) :
    (mergeLimits p s).Resolved := by
  unfold ResourceLimits.Resolved at hs ⊢
  unfold mergeLimits
  dsimp only
  obtain ⟨h1, h2, h3, h4, h5, h6, h7, h8⟩ := hs
  exact ⟨mergeVal_ne_default h1, mergeVal_ne_default h2, mergeVal_ne_default h3,
         mergeVal_ne_default h4, mergeVal_ne_default h5, mergeVal_ne_default h6,
         mergeVal_ne_default h7, mergeVal_ne_default h8⟩

theorem mergeConfig_resolved {p s : PartialLimitConfig} (hs : s.Resolved) :
    (mergeConfig p s).Resolved := by
  unfold PartialLimitConfig.Resolved at hs ⊢
  unfold mergeConfig
  dsimp only
  obtain ⟨h1, h2, h3, h4, h5, h6, h7, h8, h9, h10, h11⟩ := hs
  exact ⟨mergeLimits_resolved h1, mergeLimits_resolved h2, mergeLimits_resolved h3,
         mergeLimits_resolved h4, mergeLimits_resolved h5, mergeLimits_resolved h6,
         mergeLimits_resolved h7, mergeLimits_resolved h8, mergeLimits_resolved h9,
         mergeLimits_resolved h10, mergeLimits_resolved h11⟩

/-- Truncated division of a product by a smaller positive divisor stays
positive: the rescaled streams value cannot collapse to the sentinel. -/
theorem tdiv_rescale_pos {c s m : Int} (hc : 0 < c) (hs : 0 < s) (hm : c ≤ m) :
    0 < Int.tdiv (m * s) c := by
  have hm0 : 0 < m := lt_of_lt_of_le hc hm
  have hms : 0 ≤ m * s := le_of_lt (mul_pos hm0 hs)
  rw [Int.tdiv_eq_ediv hms (le_of_lt hc)]
  have hcms : 1 * c ≤ m * s := by nlinarith
  have := (Int.le_ediv_iff_mul_le hc).mpr hcms
  omega

/-- The sanity override keeps a resolved `System` record resolved. -/
theorem sanityOverride_resolved {sys : ResourceLimits} (hw : Int)
    (hres : sys.Resolved) : (sanityOverride sys hw).Resolved := by
  by_cases h : sys.ConnsInbound > DefaultLimit
  · unfold sanityOverride
    rw [if_pos h]
    unfold ResourceLimits.Resolved at hres ⊢
    dsimp only
    obtain ⟨h1, h2, h3, h4, h5, h6, h7, h8⟩ := hres
    unfold DefaultLimit at h ⊢
    set m1 : Int := if sys.ConnsInbound < hw * 2 then hw * 2 else sys.ConnsInbound with hm1
    set m2 : Int := if m1 < 800 then 800 else m1 with hm2
    have hcm : sys.ConnsInbound ≤ m2 := by
      rw [hm2, hm1]
      split_ifs <;> omega
    have h800 : (800 : Int) ≤ m2 := by
      rw [hm2, hm1]
      split_ifs <;> omega
    refine ⟨h1, h2, h3, by omega, h5, h6, ?_, h8⟩
    by_cases hstr : sys.StreamsInbound > 0
    · rw [if_pos hstr]
      have := tdiv_rescale_pos h hstr hcm
      omega
    · rw [if_neg hstr]
      exact h7
  · unfold sanityOverride
    rw [if_neg h]
    exact hres

/-- C7: no field of any configuration returned by the planner is left in the
unresolved `DefaultLimit` ("inherit") state, for either builder variant,
provided the external autoscaler returns fully-resolved hierarchies (as the
spec guarantees of it). -/
theorem planner_configs_resolved (envMem : Nat) (envFD : Int)
    (scale : Nat → Int → PartialLimitConfig) (maxMemory₀ : Nat) (maxFD₀ : Int)
    (connMgrHighWater : Int)
    (hscale : ∀ m f, (scale m f).Resolved) :
    (makeResourceManagerConfig envMem envFD scale maxMemory₀ maxFD₀
        connMgrHighWater).Resolved ∧
    (makeSeparateDHTClientResourceManagerConfig scale maxMemory₀ maxFD₀).Resolved := by
  constructor
  · unfold makeResourceManagerConfig
    dsimp only
    have hm := mergeConfig_resolved
      (p := generalPartialLimits (if maxMemory₀ = 0 then envMem else maxMemory₀)
        (if maxFD₀ = 0 then envFD else maxFD₀))
      (hscale (if maxMemory₀ = 0 then envMem else maxMemory₀)
        (if maxFD₀ = 0 then envFD else maxFD₀))
    unfold PartialLimitConfig.Resolved at hm ⊢
    obtain ⟨h1, h2, h3, h4, h5, h6, h7, h8, h9, h10, h11⟩ := hm
    exact ⟨sanityOverride_resolved connMgrHighWater h1, h2, h3, h4, h5, h6, h7, h8,
           h9, h10, h11⟩
  · exact mergeConfig_resolved (hscale maxMemory₀ maxFD₀)

/-- Witness for C7 with a concrete all-unlimited autoscaler output. -/
theorem planner_configs_resolved_witness :
    (makeResourceManagerConfig 0 0 sampleScale 4294967296 4096 400).Resolved ∧
    (makeSeparateDHTClientResourceManagerConfig sampleScale 4294967296 4096).Resolved :=
  planner_configs_resolved 0 0 sampleScale 4294967296 4096 400
    (fun _ _ => (by decide : sampleScaled.Resolved))

/-- Witness for C10 at `maxMemory = 5` bytes, exercising the skipped clamp
on an all-unlimited merged system record. -/
theorem small_memory_default_collision_witness :
    0 < 5 ∧ (5 : Nat) < 2 ^ 20 ∧
    (generalPartialLimits 5 7).System.ConnsInbound = DefaultLimit ∧
    (mergeConfig (generalPartialLimits 5 7) (sampleScale 5 7)).System.ConnsInbound
      = (sampleScale 5 7).System.ConnsInbound ∧
    sanityOverride infiniteResourceLimits 999 = infiniteResourceLimits :=
  ⟨by decide, by decide,
   (small_memory_default_collision 5 7 sampleScale (by decide) (by decide)).1,
   (small_memory_default_collision 5 7 sampleScale (by decide) (by decide)).2.1,
   (small_memory_default_collision 5 7 sampleScale (by decide) (by decide)).2.2
     infiniteResourceLimits 999 (by decide)⟩

/-- C8: if construction of either resource manager fails, `makeResourceMgrs`
returns that error verbatim together with `nil` (`none`) for both host
results — no partial configuration reaches the caller.  The nonzero-budget
hypotheses pin down the zero-substitution so the failing configuration can
be named explicitly. -/
theorem makeResourceMgrs_error_propagation {Err Mgr : Type}
    (envMem : Nat) (envFD : Int) (scale : Nat → Int → PartialLimitConfig)
    (newRM : PartialLimitConfig → Except Err Mgr)
    (maxMemory : Nat) (maxFD : Int) (connMgrHighWater : Int) (e : Err)
    (hm0 : maxMemory ≠ 0) (hf0 : maxFD ≠ 0) :
    (newRM (makeResourceManagerConfig envMem envFD scale maxMemory maxFD
        connMgrHighWater) = Except.error e →
      makeResourceMgrs envMem envFD scale newRM maxMemory maxFD connMgrHighWater false
        = (none, none, some e)) ∧
    (newRM (makeResourceManagerConfig envMem envFD scale (bitswapHostMem maxMemory)
        (bitswapHostFDs maxFD) connMgrHighWater) = Except.error e →
      makeResourceMgrs envMem envFD scale newRM maxMemory maxFD connMgrHighWater true
        = (none, none, some e)) ∧
    (∀ mgr : Mgr,
      newRM (makeResourceManagerConfig envMem envFD scale (bitswapHostMem maxMemory)
          (bitswapHostFDs maxFD) connMgrHighWater) = Except.ok mgr →
      newRM (makeSeparateDHTClientResourceManagerConfig scale (dhtHostMem maxMemory)
          (dhtHostFDs maxFD)) = Except.error e →
      makeResourceMgrs envMem envFD scale newRM maxMemory maxFD connMgrHighWater true
        = (none, none, some e)) := by
  unfold makeResourceMgrs
  dsimp only
  rw [if_neg hm0, if_neg hf0]
  refine ⟨?_, ?_, ?_⟩
  · intro herr
    rw [herr]
    rfl
  · intro herr
    rw [herr]
    rfl
  · intro mgr hok herr
    rw [hok]
    dsimp only
    rw [herr]
    rfl

/-- A constructor that always fails, for exercising C8. -/
def failRM : PartialLimitConfig → Except Nat Unit := fun _ => Except.error 7

/-- A constructor that fails exactly on the secondary (DHT) host's
configuration for the concrete dual-host run below. -/
def dhtOnlyFailRM : PartialLimitConfig → Except Nat Unit := fun c =>
  if c = makeSeparateDHTClientResourceManagerConfig sampleScale
      (dhtHostMem 1073741824) (dhtHostFDs 1000)
  then Except.error 9 else Except.ok ()

/-- Witness for C8: single-host failure, dual-host primary failure, and
dual-host secondary failure all yield `(none, none, some e)`. -/
theorem makeResourceMgrs_error_propagation_witness :
    (1073741824 : Nat) ≠ 0 ∧ (1000 : Int) ≠ 0 ∧
    makeResourceMgrs 0 0 sampleScale failRM 1073741824 1000 400 false
      = (none, none, some 7) ∧
    makeResourceMgrs 0 0 sampleScale failRM 1073741824 1000 400 true
      = (none, none, some 7) ∧
    makeResourceMgrs 0 0 sampleScale dhtOnlyFailRM 1073741824 1000 400 true
      = (none, none, some 9) :=
  ⟨by decide, by decide,
   (makeResourceMgrs_error_propagation 0 0 sampleScale failRM 1073741824 1000 400 7
     (by decide) (by decide)).1 rfl,
   (makeResourceMgrs_error_propagation 0 0 sampleScale failRM 1073741824 1000 400 7
     (by decide) (by decide)).2.1 rfl,
   (makeResourceMgrs_error_propagation 0 0 sampleScale dhtOnlyFailRM 1073741824 1000 400 9
     (by decide) (by decide)).2.2 () rfl rfl⟩

end Rcmgr
